import Mathlib

/-!
Verification of the chunk-parser engine (src/src/lib.rs) by shallow embedding.

The Rust source is a generic chunk parser: a cursor over a seekable byte
source, typed reads (native-order and byte-swapped), a `u8` nesting-depth
counter, and the `ChunkParser` loop (`parse_loop` / `parse` / `subchunks`).
Machine integers are embedded as `Nat` with an explicit `% 2 ^ 64` (or
`% 2 ^ 256` analogues) exactly where the Rust arithmetic is performed on
`u64` / `u8` and can wrap; fallible operations return `Except Error`.
Stateful methods (`&mut self` in Rust) are embedded as state-passing
functions that return the result together with the new state, so that the
state after a failure is observable, as it is in Rust.
-/

namespace ChunkParser

/-- Error type common to all chunk parsers (src/src/lib.rs lines 14-22).
The `std::io::Error` payload of `IoError` carries no information the claims
use, so it is dropped. -/
inductive Error where
  | IoError
  | ParseError
  | SizeOverflow
  | Unimplemented
  | UnknownChunk
  deriving DecidableEq, Repr

/-- Embedding of `std::io::Cursor` over an in-memory byte buffer: a byte
list plus a `u64` position (positions kept below `2 ^ 64` by the operations
that move them). Bytes are `Nat`s below 256. -/
structure Cursor where
  data : List Nat
  pos : Nat
  deriving DecidableEq, Repr

/-- Embedding of `Cursor::read_exact` for `n` bytes: succeeds returning the
`n` bytes at `pos` when they are all present; otherwise consumes whatever
remains (the default `read_exact` loop drains the cursor before reporting
`UnexpectedEof`) and fails. -/
def read_exact (n : Nat) (c : Cursor) : (Except Error (List Nat)) × Cursor :=
  if c.pos + n ≤ c.data.length then
    (.ok ((c.data.drop c.pos).take n), ⟨c.data, c.pos + n⟩)
  else
    (.error .IoError, ⟨c.data, max c.pos c.data.length⟩)

/-- Little-endian (the native order of the reference targets) value of a
byte list; the value `read_uninit::<T>` produces for an integer `T` whose
`size_of` equals the list length. -/
def leDecode : List Nat → Nat
  | [] => 0
  | b :: bs => b + 256 * leDecode bs

/-- The `n`-byte little-endian encoding of `v % 2 ^ (8 * n)`. -/
def leEncode : Nat → Nat → List Nat
  | 0, _ => []
  | n + 1, v => (v % 256) :: leEncode n (v / 256)

/-- Embedding of `T::swap_bytes` for an `n`-byte integer: reverse the byte
order of the `n`-byte representation. -/
def swap_bytes (n v : Nat) : Nat :=
  leDecode (List.reverse (leEncode n v))

/-- Embedding of `ParserRead::read::<T>` (src/src/lib.rs lines 120-121) for
an integer type of byte width `n`: `read_uninit` reads `size_of::<T>` bytes
and reinterprets them in native order. -/
def read (n : Nat) (c : Cursor) : (Except Error Nat) × Cursor :=
  match read_exact n c with
  | (.error e, c') => (.error e, c')
  | (.ok bs, c') => (.ok (leDecode bs), c')

/-- Embedding of `ParserRead::read_be::<T>` (src/src/lib.rs lines 124-125):
`T::swap_bytes(self.reader().read_uninit()?)`. -/
def read_be (n : Nat) (c : Cursor) : (Except Error Nat) × Cursor :=
  match read_exact n c with
  | (.error e, c') => (.error e, c')
  | (.ok bs, c') => (.ok (swap_bytes n (leDecode bs)), c')

/-- Reinterpretation `offset as i64` of a `u64` value (two's complement). -/
def toI64 (n : Nat) : Int :=
  if n < 2 ^ 63 then (n : Int) else (n : Int) - 2 ^ 64

/-- Embedding of `<Cursor as Seek>::seek(SeekFrom::Current(d))`: the new
position is `pos + d` when that is representable in `u64`, otherwise the
seek fails (Rust's cursor rejects positions that would be negative or
overflow) and the position is unchanged. -/
def seek_current (d : Int) (c : Cursor) : (Except Error Nat) × Cursor :=
  if 0 ≤ (c.pos : Int) + d ∧ (c.pos : Int) + d < 2 ^ 64 then
    (.ok ((c.pos : Int) + d).toNat, ⟨c.data, ((c.pos : Int) + d).toNat⟩)
  else (.error .IoError, c)

/-- Embedding of `ParserSeek::seek` (src/src/lib.rs lines 56-59):
`SeekFrom::Start(offset)` on the cursor, returning the new position. -/
def seek (offset : Nat) (c : Cursor) : (Except Error Nat) × Cursor :=
  (.ok offset, ⟨c.data, offset⟩)

/-- Embedding of `ParserSeek::skip` (src/src/lib.rs lines 62-66): seek by
`offset as i64` relative to the current position, then return the `offset`
argument itself (not the position the seek produced). -/
def skip (offset : Nat) (c : Cursor) : (Except Error Nat) × Cursor :=
  match seek_current (toI64 offset) c with
  | (.error e, c') => (.error e, c')
  | (.ok _, c') => (.ok offset, c')

/-- Negation of an `i64` value (wrapping: `-(i64::MIN) = i64::MIN`). -/
def negI64 (x : Int) : Int :=
  if x = -(2 ^ 63) then x else -x

/-- Embedding of `ParserSeek::rewind` (src/src/lib.rs lines 69-72): seek by
`-(offset as i64)` relative to the current position and return the position
the seek produced. -/
def rewind (offset : Nat) (c : Cursor) : (Except Error Nat) × Cursor :=
  match seek_current (negI64 (toI64 offset)) c with
  | (.error e, c') => (.error e, c')
  | (.ok p, c') => (.ok p, c')

/-- Embedding of `ParserDepth::push` (src/src/lib.rs line 92): an unchecked
`u8` increment, which wraps modulo 256 (release semantics) at 255. -/
def push (d : Nat) : Nat := (d + 1) % 256

/-- Embedding of `ParserDepth::pop` (src/src/lib.rs line 95): an unchecked
`u8` decrement, which wraps modulo 256 at 0. -/
def pop (d : Nat) : Nat := (d + 255) % 256

/-- Parser state: the inner reader plus the `u8` depth counter, as held by
the parser structs that implement `ParserReader` and `ParserDepth` (for
example the test's `IFFParserFull { reader, depth }`). -/
structure Parser (ρ : Type) where
  reader : ρ
  depth : Nat
  deriving DecidableEq, Repr

/-- Operations of the generic reader `R : Read + Seek` that `ChunkParser`'s
loop methods use directly on `self.reader()`: `stream_position()`,
`seek(SeekFrom::End(0))` and `seek(SeekFrom::Start(0))`. Each may fail, and
returns the new reader state in both outcomes, as `&mut` methods do. -/
structure ReaderOps (ρ : Type) where
  stream_position : ρ → (Except Error Nat) × ρ
  seek_end : ρ → (Except Error Nat) × ρ
  seek_start : Nat → ρ → (Except Error Nat) × ρ

/-- The `ReaderOps` of the in-memory `Cursor`: `stream_position` always
succeeds with the current position, `seek(End(0))` moves to and returns the
buffer length, `seek(Start(o))` moves to and returns `o`. -/
def cursorOps : ReaderOps Cursor where
  stream_position := fun c => (.ok c.pos, c)
  seek_end := fun c => (.ok c.data.length, ⟨c.data, c.data.length⟩)
  seek_start := fun o c => (.ok o, ⟨c.data, o⟩)

/-- Result of one `ChunkParser` loop call: `Ok(())`, `Err(e)`, or — in the
fuel-bounded embedding — `diverge` when the fuel ran out before the Rust
`loop` reached a `break` (the Rust loop has no bound of its own). -/
inductive PResult where
  | ok
  | err (e : Error)
  | diverge
  deriving DecidableEq, Repr

/-- Embedding of `ChunkParser::parse_loop` (src/src/lib.rs lines 174-184),
bounded by `fuel` iterations. Each iteration: read a header (`hdr` is the
format-supplied `HeaderParser::header`, acting on the whole parser state),
record `start`, run the body function `f` for the declared `size`, compute
`end = start + size` with the source's unchecked `u64` addition (wrapping,
hence the `% 2 ^ 64`), then compare the position first against `total_size`
(break `Ok`), then against `end` (break `Err(ParseError)`), else iterate. -/
def parse_loop (ops : ReaderOps ρ) (hdr : Parser ρ → (Except Error H) × Parser ρ)
    (f : Parser ρ → H → (Except Error Nat) × Parser ρ)
    (total_size : Nat) : Nat → Parser ρ → PResult × Parser ρ
  | 0, p => (.diverge, p)
  | fuel + 1, p =>
    match hdr p with
    | (.error e, p') => (.err e, p')
    | (.ok h, p₁) =>
      match ops.stream_position p₁.reader with
      | (.error e, r) => (.err e, { p₁ with reader := r })
      | (.ok start, r) =>
        match f { p₁ with reader := r } h with
        | (.error e, p') => (.err e, p')
        | (.ok size, p₃) =>
          match ops.stream_position p₃.reader with
          | (.error e, r') => (.err e, { p₃ with reader := r' })
          | (.ok pos, r') =>
            if pos = total_size then (.ok, { p₃ with reader := r' })
            else if pos ≠ (start + size) % 2 ^ 64 then
              (.err .ParseError, { p₃ with reader := r' })
            else parse_loop ops hdr f total_size fuel { p₃ with reader := r' }

/-- Embedding of `ChunkParser::parse` (src/src/lib.rs lines 186-192): seek
to the end to learn the total length, seek back to offset 0, and run
`parse_loop` over `[0, total_length)`. -/
def parse (ops : ReaderOps ρ) (hdr : Parser ρ → (Except Error H) × Parser ρ)
    (f : Parser ρ → H → (Except Error Nat) × Parser ρ)
    (fuel : Nat) (p : Parser ρ) : PResult × Parser ρ :=
  match ops.seek_end p.reader with
  | (.error e, r) => (.err e, { p with reader := r })
  | (.ok total_size, r) =>
    match ops.seek_start 0 r with
    | (.error e, r') => (.err e, { p with reader := r' })
    | (.ok _, r') => parse_loop ops hdr f total_size fuel { p with reader := r' }

/-- Embedding of `ChunkParser::subchunks` (src/src/lib.rs lines 196-204):
`push()`, query the current position, run `parse_loop` with
`total_size = pos + size` (the source's unchecked `u64` addition, hence the
`% 2 ^ 64`), then `pop()` and forward the result. Two paths skip `pop()`,
exactly as the source does: the `?` on `stream_position` returns from
`subchunks` before the `match` arm containing `pop()` runs, and a
`parse_loop` that never breaks (here: exhausts its fuel) never reaches it. -/
def subchunks (ops : ReaderOps ρ) (hdr : Parser ρ → (Except Error H) × Parser ρ)
    (f : Parser ρ → H → (Except Error Nat) × Parser ρ)
    (total_size : Nat) (fuel : Nat) (p : Parser ρ) : PResult × Parser ρ :=
  let p₁ : Parser ρ := { p with depth := push p.depth }
  match ops.stream_position p₁.reader with
  | (.error e, r) => (.err e, { p₁ with reader := r })
  | (.ok pos, r) =>
    match parse_loop ops hdr f ((pos + total_size) % 2 ^ 64) fuel { p₁ with reader := r } with
    | (.diverge, q) => (.diverge, q)
    | (res, q) => (res, { q with depth := pop q.depth })

/-- Lift a `Cursor`-only operation to the parser state, leaving the depth
untouched; this is how `ParserRead` / `ParserSeek` methods act on a parser
(they only touch `self.reader()`). -/
def liftR (g : Cursor → (Except Error α) × Cursor)
    (p : Parser Cursor) : (Except Error α) × Parser Cursor :=
  match g p.reader with
  | (res, r) => (res, { p with reader := r })

/-- Modelled from the spec: the `expect` primitive of spec section 4.2 and
its unexpected-value error kind are absent from src/ (the `Error` enum at
src/src/lib.rs lines 14-22 has no such variant, and no `expect` method
exists under src/). This error type holds the kinds the spec gives that
primitive: a forwarded I/O failure from the decode, or the mismatch kind. -/
inductive ExpectError where
  | ioError
  | unexpectedValue
  deriving DecidableEq, Repr

/-- Modelled from the spec: `expect<T>(value)` for an integer of byte width
`n` decodes a `T` via `read` and "fails with UnexpectedValue if the decoded
value differs", "otherwise succeeds and leaves the cursor advanced past the
read" (spec section 4.2); the read itself advances the cursor, so the
mismatch path has post-read semantics. -/
def expect (n value : Nat) (c : Cursor) : (Except ExpectError Unit) × Cursor :=
  match read n c with
  | (.error _, c') => (.error .ioError, c')
  | (.ok v, c') => if v = value then (.ok (), c') else (.error .unexpectedValue, c')

/-- A reader whose position/seek queries all fail: a legitimate instance of
the generic `R : Read + Seek` parameter (nothing in the traits prevents a
reader from failing these), used to exercise the error paths of the loop
methods. -/
def failOps : ReaderOps Unit where
  stream_position := fun r => (.error .IoError, r)
  seek_end := fun r => (.error .IoError, r)
  seek_start := fun _ r => (.error .IoError, r)

/-- Follows the claim's words, not the source: a variant of `subchunks`
whose nested loop gets the exact sum `position + declared_group_size` as
its end bound, without the wrap of the source's unchecked `u64` addition.
Declared only to be compared with `subchunks`. -/
def subchunks_claim (ops : ReaderOps ρ) (hdr : Parser ρ → (Except Error H) × Parser ρ)
    (f : Parser ρ → H → (Except Error Nat) × Parser ρ)
    (total_size : Nat) (fuel : Nat) (p : Parser ρ) : PResult × Parser ρ :=
  let p₁ : Parser ρ := { p with depth := push p.depth }
  match ops.stream_position p₁.reader with
  | (.error e, r) => (.err e, { p₁ with reader := r })
  | (.ok pos, r) =>
    match parse_loop ops hdr f (pos + total_size) fuel { p₁ with reader := r } with
    | (.diverge, q) => (.diverge, q)
    | (res, q) => (res, { q with depth := pop q.depth })

/-- The 24-byte IFF test stream of the source's test module (`DATA`,
src/src/lib.rs lines 282-292): a FORM chunk whose 8-byte header declares a
16-byte payload. -/
def testData : List Nat :=
  [0x46, 0x4f, 0x52, 0x4d, 0x00, 0x00, 0x00, 0x10,
   0x54, 0x45, 0x53, 0x54, 0x54, 0x45, 0x53, 0x54,
   0x00, 0x00, 0x00, 0x04, 0x01, 0x02, 0x03, 0x04]

/-- The IFF header protocol of the source's tests: a 4-byte native-order
type id followed by a 4-byte big-endian length
(`IFFHeader { typeid: self.read()?, length: self.read_be()? }`). -/
def headerIFF (c : Cursor) : (Except Error (Nat × Nat)) × Cursor :=
  match read 4 c with
  | (.error e, c₁) => (.error e, c₁)
  | (.ok t, c₁) =>
    match read_be 4 c₁ with
    | (.error e, c₂) => (.error e, c₂)
    | (.ok len, c₂) => (.ok (t, len), c₂)

/-- Byte lists below 256 round-trip through decode/encode. -/
lemma leEncode_leDecode : ∀ bs : List Nat, (∀ b ∈ bs, b < 256) →
    leEncode bs.length (leDecode bs) = bs := by
  intro bs
  induction bs with
  | nil => intro _; rfl
  | cons b t ih =>
    intro hb
    have hblt : b < 256 := hb b (List.mem_cons_self b t)
    have h1 : (b + 256 * leDecode t) % 256 = b := by omega
    have h2 : (b + 256 * leDecode t) / 256 = leDecode t := by omega
    simp only [List.length_cons, leDecode, leEncode, h1, h2]
    rw [ih (fun x hx => hb x (List.mem_cons_of_mem _ hx))]

/-- C7: for every fixed-size primitive integer type (byte width
`bs.length`) and every byte sequence `bs` of that width, `read_be` on `bs`
yields the same value as `read` on the reversed sequence. -/
theorem C7_read_be_is_read_of_reversed (bs : List Nat) (hb : ∀ b ∈ bs, b < 256) :
    (read_be bs.length ⟨bs, 0⟩).1 = (read bs.length ⟨bs.reverse, 0⟩).1 := by
  have hx : read_exact bs.length ⟨bs, 0⟩ = (.ok bs, ⟨bs, bs.length⟩) := by
    simp [read_exact]
  have hy : read_exact bs.length ⟨bs.reverse, 0⟩ =
      (.ok bs.reverse, ⟨bs.reverse, bs.length⟩) := by
    simp [read_exact]
  simp only [read_be, read, hx, hy]
  show Except.ok (swap_bytes bs.length (leDecode bs)) = Except.ok (leDecode bs.reverse)
  rw [swap_bytes, leEncode_leDecode bs hb]

/-- C7 witness: the theorem applied to the 4-byte sequence `[1, 2, 3, 4]`. -/
theorem C7_witness :
    (∀ b ∈ [1, 2, 3, 4], b < 256) ∧
    (read_be 4 ⟨[1, 2, 3, 4], 0⟩).1 = (read 4 ⟨[4, 3, 2, 1], 0⟩).1 :=
  ⟨by decide, C7_read_be_is_read_of_reversed [1, 2, 3, 4] (by decide)⟩

/-- C8 counterexample: the claim says `push` increases depth by 1 at every
current depth value without wrapping, but the depth counter is a `u8` and
the unchecked increment at depth 255 wraps to 0, not 256. -/
theorem C8_counterexample : push 255 = 0 ∧ push 255 ≠ 255 + 1 := by decide

/-- C8 (amended): no upper bound is checked by the component, and for every
depth below 255 the enter operation increases depth by exactly 1; the `u8`
counter overflows at 255 (wrapping modulo 256 under release semantics), so
nesting beyond 255 is not tracked correctly. -/
theorem C8_push_increments_below_255 (d : Nat) (h : d < 255) : push d = d + 1 := by
  unfold push
  omega

/-- C8 witness: the amended theorem applied at depth 7. -/
theorem C8_witness : 7 < 255 ∧ push 7 = 8 :=
  ⟨by decide, C8_push_increments_below_255 7 (by decide)⟩

/-- C9: when the decode of the next `n` bytes succeeds, `expect` fails with
the unexpected-value kind exactly when the decoded value differs from the
expected literal, and in both outcomes the cursor ends advanced past the
read bytes (post-read semantics), at `pos + n`. -/
theorem C9_expect_unexpected_value (n value : Nat) (c : Cursor)
    (h : c.pos + n ≤ c.data.length) :
    expect n value c =
      (if leDecode ((c.data.drop c.pos).take n) = value then .ok ()
       else .error .unexpectedValue,
       ⟨c.data, c.pos + n⟩) := by
  have hr : read n c = (.ok (leDecode ((c.data.drop c.pos).take n)), ⟨c.data, c.pos + n⟩) := by
    simp [read, read_exact, h]
  simp only [expect, hr]
  by_cases hv : leDecode ((c.data.drop c.pos).take n) = value <;> simp [hv]

/-- C9 witness: expecting the value 1 where the stream holds the tag bytes
"TEST" fails with the unexpected-value kind, cursor left at 4. -/
theorem C9_witness :
    0 + 4 ≤ 4 ∧
    expect 4 1 ⟨[84, 69, 83, 84], 0⟩ = (.error .unexpectedValue, ⟨[84, 69, 83, 84], 4⟩) := by
  refine ⟨by decide, ?_⟩
  have h := C9_expect_unexpected_value 4 1 ⟨[84, 69, 83, 84], 0⟩ (by decide)
  rw [h]
  rfl

/-- C10: for every offset below `2 ^ 63` (`i64::MAX` bound, forced by the
`offset as i64` reinterpretation) whose target fits in `u64`, a successful
`skip` advances the cursor by exactly the offset but returns the offset
argument itself — while `seek` and `rewind` return the resulting stream
position. -/
theorem C10_skip_returns_argument (n : Nat) (c : Cursor) (h63 : n < 2 ^ 63)
    (hfit : c.pos + n < 2 ^ 64) :
    skip n c = (.ok n, ⟨c.data, c.pos + n⟩) ∧
    (∀ o, seek o c = (.ok o, ⟨c.data, o⟩)) ∧
    (∀ m, m ≤ c.pos → m < 2 ^ 63 → c.pos < 2 ^ 64 →
      rewind m c = (.ok (c.pos - m), ⟨c.data, c.pos - m⟩)) := by
  refine ⟨?_, fun o => rfl, ?_⟩
  · have ht : toI64 n = (n : Int) := by unfold toI64; rw [if_pos h63]
    have hc : seek_current ((n : Nat) : Int) c = (.ok (c.pos + n), ⟨c.data, c.pos + n⟩) := by
      rw [seek_current, if_pos]
      · have : ((c.pos : Int) + (n : Int)).toNat = c.pos + n := by omega
        rw [this]
      · constructor
        · positivity
        · have : ((c.pos : Int) + (n : Int)) = ((c.pos + n : Nat) : Int) := by push_cast; ring
          rw [this]
          exact_mod_cast hfit
    simp [skip, ht, hc]
  · intro m hm h63m hpos
    have ht : negI64 (toI64 m) = -(m : Int) := by
      rw [toI64, if_pos h63m, negI64, if_neg (by omega)]
    have hc : seek_current (-(m : Int)) c = (.ok (c.pos - m), ⟨c.data, c.pos - m⟩) := by
      rw [seek_current, if_pos]
      · have : ((c.pos : Int) + -(m : Int)).toNat = c.pos - m := by omega
        rw [this]
      · constructor <;> omega
    simp [rewind, ht, hc]

/-- C10 witness: skipping 5 from position 7 returns 5 (not the resulting
position 12), seek to 9 returns 9, rewinding 3 returns the new position 4. -/
theorem C10_witness :
    (5 : Nat) < 2 ^ 63 ∧ 7 + 5 < 2 ^ 64 ∧
    skip 5 ⟨[], 7⟩ = (.ok 5, ⟨[], 12⟩) ∧
    seek 9 (⟨[], 7⟩ : Cursor) = (.ok 9, ⟨[], 9⟩) ∧
    rewind 3 ⟨[], 7⟩ = (.ok 4, ⟨[], 4⟩) := by
  have h := C10_skip_returns_argument 5 ⟨[], 7⟩ (by norm_num) (by norm_num)
  exact ⟨by norm_num, by norm_num, h.1, h.2.1 9, h.2.2 3 (by norm_num) (by norm_num) (by norm_num)⟩

/-- A successful `parse_loop` over the cursor reader can only have broken
out through the `pos == total_size` check, so the final position is the
region's `total_size`. -/
lemma parse_loop_ok_pos {H : Type} (hdr : Parser Cursor → (Except Error H) × Parser Cursor)
    (f : Parser Cursor → H → (Except Error Nat) × Parser Cursor) (total : Nat) :
    ∀ fuel p q, parse_loop cursorOps hdr f total fuel p = (.ok, q) → q.reader.pos = total := by
  intro fuel
  induction fuel with
  | zero => intro p q h; simp [parse_loop] at h
  | succ n ih =>
    intro p q h
    rw [parse_loop] at h
    simp only [cursorOps] at h
    split at h
    · simp at h
    · split at h
      · simp at h
      · split_ifs at h with h1 h2
        · rw [Prod.mk.injEq] at h
          obtain ⟨-, h3⟩ := h
          subst h3
          exact h1
        · simp at h
        · exact ih _ _ h

/-- The loop itself never touches the depth counter: when the header
protocol and the body function preserve depth on success, a successful
`parse_loop` leaves depth at its entry value. -/
lemma parse_loop_ok_depth {ρ H : Type} (ops : ReaderOps ρ)
    (hdr : Parser ρ → (Except Error H) × Parser ρ)
    (f : Parser ρ → H → (Except Error Nat) × Parser ρ) (total : Nat)
    (hh : ∀ p h p', hdr p = (.ok h, p') → p'.depth = p.depth)
    (hf : ∀ p h s p', f p h = (.ok s, p') → p'.depth = p.depth) :
    ∀ fuel p q, parse_loop ops hdr f total fuel p = (.ok, q) → q.depth = p.depth := by
  intro fuel
  induction fuel with
  | zero => intro p q h; simp [parse_loop] at h
  | succ n ih =>
    intro p q h
    rw [parse_loop] at h
    rcases hhdr : hdr p with ⟨eh | hd, p₁⟩ <;> rw [hhdr] at h <;> dsimp only at h
    · simp at h
    · rcases hsp : ops.stream_position p₁.reader with ⟨es | start, r⟩ <;> rw [hsp] at h <;>
        dsimp only at h
      · simp at h
      · rcases hfe : f { p₁ with reader := r } hd with ⟨ef | size, p₃⟩ <;> rw [hfe] at h <;>
          dsimp only at h
        · simp at h
        · rcases hsp2 : ops.stream_position p₃.reader with ⟨es2 | pos, r'⟩ <;> rw [hsp2] at h <;>
            dsimp only at h
          · simp at h
          · have d1 := hh p hd p₁ hhdr
            have d2 := hf { p₁ with reader := r } hd size p₃ hfe
            split_ifs at h with h1 h2
            · rw [Prod.mk.injEq] at h
              obtain ⟨-, h3⟩ := h
              subst h3
              show p₃.depth = p.depth
              rw [d2]
              exact d1
            · simp at h
            · have hq := ih _ _ h
              rw [hq]
              show p₃.depth = p.depth
              rw [d2]
              exact d1

/-- A lifted cursor-only operation preserves the depth counter. -/
lemma liftR_depth {α : Type} (g : Cursor → (Except Error α) × Cursor) (p : Parser Cursor) :
    ∀ res q, liftR g p = (res, q) → q.depth = p.depth := by
  intro res q h
  unfold liftR at h
  rcases hg : g p.reader with ⟨r0, r⟩
  rw [hg] at h
  dsimp only at h
  rw [Prod.mk.injEq] at h
  obtain ⟨-, h2⟩ := h
  subst h2
  rfl

/-- C1 counterexample: a body function whose cursor movement disagrees with
its declared payload size (chunk start 4 + declared size 4 ≠ final position
10) for which the loop nevertheless reports success, because the final
position equals the region's total_size 10 and `parse_loop` checks
`pos == total_size` before `pos != end`. -/
theorem C1_counterexample :
    parse_loop cursorOps (fun p => ((.ok ()), p))
      (fun p _ => ((.ok 4), { p with reader := (⟨p.reader.data, 10⟩ : Cursor) })) 10 1
      ⟨⟨[], 4⟩, 0⟩ = (.ok, ⟨⟨[], 10⟩, 0⟩) ∧
    (10 : Nat) ≠ 4 + 4 :=
  ⟨rfl, by decide⟩

/-- C1 (amended): whenever the position after a chunk body differs from
both `(start + declared size) % 2 ^ 64` and the region's `total_size`, the
parse loop fails with `Error.ParseError`; but when that position equals
`total_size` the loop reports success even if it disagrees with the
declared size (the exhaustion check precedes the mismatch check). -/
theorem C1_size_mismatch_parse_error {ρ H : Type} (ops : ReaderOps ρ)
    (hdr : Parser ρ → (Except Error H) × Parser ρ)
    (f : Parser ρ → H → (Except Error Nat) × Parser ρ)
    (total fuel : Nat) (p p₁ p₃ : Parser ρ) (h : H) (start size pos : Nat) (r r' : ρ)
    (hhdr : hdr p = (.ok h, p₁))
    (hsp : ops.stream_position p₁.reader = (.ok start, r))
    (hfe : f { p₁ with reader := r } h = (.ok size, p₃))
    (hsp2 : ops.stream_position p₃.reader = (.ok pos, r')) :
    (pos ≠ total → pos ≠ (start + size) % 2 ^ 64 →
      parse_loop ops hdr f total (fuel + 1) p = (.err .ParseError, { p₃ with reader := r' })) ∧
    (pos = total →
      parse_loop ops hdr f total (fuel + 1) p = (.ok, { p₃ with reader := r' })) := by
  constructor
  · intro hne hmis
    rw [parse_loop, hhdr]
    dsimp only
    rw [hsp]
    dsimp only
    rw [hfe]
    dsimp only
    rw [hsp2]
    dsimp only
    rw [if_neg hne, if_pos hmis]
  · intro heq
    rw [parse_loop, hhdr]
    dsimp only
    rw [hsp]
    dsimp only
    rw [hfe]
    dsimp only
    rw [hsp2]
    dsimp only
    rw [if_pos heq]

/-- C1 witness: the amended theorem applied to a body that declares size 4
from chunk start 4 but lands on 9 (mismatch, total 10: ParseError) and to
one that lands exactly on the region end 10 (success). -/
theorem C1_witness :
    parse_loop cursorOps (fun p => ((.ok ()), p))
      (fun p _ => ((.ok 4), { p with reader := (⟨p.reader.data, 9⟩ : Cursor) })) 10 1
      ⟨⟨[], 4⟩, 0⟩ = (.err .ParseError, ⟨⟨[], 9⟩, 0⟩) ∧
    parse_loop cursorOps (fun p => ((.ok ()), p))
      (fun p _ => ((.ok 4), { p with reader := (⟨p.reader.data, 10⟩ : Cursor) })) 10 1
      ⟨⟨[], 4⟩, 0⟩ = (.ok, ⟨⟨[], 10⟩, 0⟩) := by
  constructor
  · exact (C1_size_mismatch_parse_error cursorOps (fun p => ((.ok ()), p))
      (fun p _ => ((.ok 4), { p with reader := (⟨p.reader.data, 9⟩ : Cursor) })) 10 0
      ⟨⟨[], 4⟩, 0⟩ ⟨⟨[], 4⟩, 0⟩ ⟨⟨[], 9⟩, 0⟩ () 4 4 9 ⟨[], 4⟩ ⟨[], 9⟩
      rfl rfl rfl rfl).1 (by decide) (by decide)
  · exact (C1_size_mismatch_parse_error cursorOps (fun p => ((.ok ()), p))
      (fun p _ => ((.ok 4), { p with reader := (⟨p.reader.data, 10⟩ : Cursor) })) 10 0
      ⟨⟨[], 4⟩, 0⟩ ⟨⟨[], 4⟩, 0⟩ ⟨⟨[], 10⟩, 0⟩ () 4 4 10 ⟨[], 4⟩ ⟨[], 10⟩
      rfl rfl rfl rfl).2 rfl

/-- C2: evaluation at the failing input. When the position query at the
start of `subchunks` fails, the `?` operator returns from `subchunks`
before the match arm holding `pop()` can run, so the error propagates with
the depth counter left at its incremented value 1, not restored to the
pre-call value 0 — violating the claim that depth returns to its pre-call
value on every exit path. -/
theorem C2_stream_position_failure_sticks_depth :
    subchunks failOps (fun p => ((.ok ()), p)) (fun p _ => ((.ok 0), p)) 5 3
      (⟨(), 0⟩ : Parser Unit) = (.err .IoError, ⟨(), 1⟩) ∧
    (1 : Nat) ≠ 0 :=
  ⟨rfl, by decide⟩

/-- C3: evaluation at the failing input. With the cursor at `2 ^ 64 - 4`
and a body declaring size 8, `start + declared_size` exceeds `u64::MAX`;
the source's `end = start + size` is an unchecked addition, so `end` wraps
to 4 and the loop reports `Error.ParseError` — never `Error.SizeOverflow`;
and when the wrapped `end` happens to equal the cursor position (second
run), the loop even continues silently past the overflowed chunk before
failing on the next one. -/
theorem C3_end_addition_unchecked :
    (2 ^ 64 - 4) + 8 ≥ 2 ^ 64 ∧
    parse_loop cursorOps (fun p => ((.ok ()), p)) (fun p _ => ((.ok 8), p)) 999 1
      ⟨⟨[], 2 ^ 64 - 4⟩, 0⟩ = (.err .ParseError, ⟨⟨[], 2 ^ 64 - 4⟩, 0⟩) ∧
    parse_loop cursorOps (fun p => ((.ok ()), p))
      (fun p _ => ((.ok 8), { p with reader := (⟨p.reader.data, 4⟩ : Cursor) })) 5 2
      ⟨⟨[], 2 ^ 64 - 4⟩, 0⟩ = (.err .ParseError, ⟨⟨[], 4⟩, 0⟩) :=
  ⟨by norm_num, rfl, rfl⟩

/-- C4: the parse loop terminates successfully only with the cursor at the
region's `total_size` (first conjunct), and that is its only success exit:
a chunk body ending exactly at `total_size` breaks the loop with success
(second), a chunk ending at its declared end short of `total_size` loops
back to another header read (third), and a failing header read at the top
of an iteration propagates its error, never silent success (fourth). -/
theorem C4_success_exit {H : Type}
    (hdr : Parser Cursor → (Except Error H) × Parser Cursor)
    (f : Parser Cursor → H → (Except Error Nat) × Parser Cursor)
    (total fuel : Nat) (p : Parser Cursor) :
    (∀ q, parse_loop cursorOps hdr f total fuel p = (.ok, q) → q.reader.pos = total) ∧
    (∀ h p₁ size p₃, hdr p = (.ok h, p₁) → f p₁ h = (.ok size, p₃) →
      p₃.reader.pos = total →
      parse_loop cursorOps hdr f total (fuel + 1) p = (.ok, p₃)) ∧
    (∀ h p₁ size p₃, hdr p = (.ok h, p₁) → f p₁ h = (.ok size, p₃) →
      p₃.reader.pos ≠ total → p₃.reader.pos = (p₁.reader.pos + size) % 2 ^ 64 →
      parse_loop cursorOps hdr f total (fuel + 1) p = parse_loop cursorOps hdr f total fuel p₃) ∧
    (∀ e q, hdr p = (.error e, q) →
      parse_loop cursorOps hdr f total (fuel + 1) p = (.err e, q)) := by
  refine ⟨fun q h => parse_loop_ok_pos hdr f total fuel p q h, ?_, ?_, ?_⟩
  · intro h p₁ size p₃ hhdr hfe hpos
    rw [parse_loop, hhdr]
    dsimp only [cursorOps]
    rw [show ({ reader := p₁.reader, depth := p₁.depth } : Parser Cursor) = p₁ from rfl, hfe]
    dsimp only
    rw [if_pos hpos]
  · intro h p₁ size p₃ hhdr hfe hne hend
    rw [parse_loop, hhdr]
    dsimp only [cursorOps]
    rw [show ({ reader := p₁.reader, depth := p₁.depth } : Parser Cursor) = p₁ from rfl, hfe]
    dsimp only
    rw [if_neg hne, if_neg (not_not_intro hend)]
  · intro e q hhdr
    rw [parse_loop, hhdr]

/-- C4 witness: the theorem applied to concrete runs: a chunk ending at
total 10 succeeds with the final position 10; the same chunk under total 99
ends at its declared end 10 and loops back to another header read; a header
protocol that fails propagates its error. -/
theorem C4_witness :
    (⟨⟨[], 10⟩, 0⟩ : Parser Cursor).reader.pos = 10 ∧
    parse_loop cursorOps (fun p => ((.ok ()), p))
      (fun p _ => ((.ok 6), { p with reader := (⟨p.reader.data, 10⟩ : Cursor) })) 10 1
      ⟨⟨[], 4⟩, 0⟩ = (.ok, ⟨⟨[], 10⟩, 0⟩) ∧
    parse_loop cursorOps (fun p => ((.ok ()), p))
      (fun p _ => ((.ok 6), { p with reader := (⟨p.reader.data, 10⟩ : Cursor) })) 99 2
      ⟨⟨[], 4⟩, 0⟩ =
      parse_loop cursorOps (fun p => ((.ok ()), p))
        (fun p _ => ((.ok 6), { p with reader := (⟨p.reader.data, 10⟩ : Cursor) })) 99 1
        ⟨⟨[], 10⟩, 0⟩ ∧
    parse_loop cursorOps (fun p => (((.error .UnknownChunk) : Except Error Unit), p))
      (fun p _ => ((.ok 0), p)) 10 1 ⟨⟨[], 4⟩, 0⟩ = (.err .UnknownChunk, ⟨⟨[], 4⟩, 0⟩) := by
  refine ⟨?_, ?_, ?_, ?_⟩
  · exact (C4_success_exit (fun p => ((.ok ()), p))
      (fun p _ => ((.ok 6), { p with reader := (⟨p.reader.data, 10⟩ : Cursor) })) 10 1
      ⟨⟨[], 4⟩, 0⟩).1 ⟨⟨[], 10⟩, 0⟩ rfl
  · exact (C4_success_exit (fun p => ((.ok ()), p))
      (fun p _ => ((.ok 6), { p with reader := (⟨p.reader.data, 10⟩ : Cursor) })) 10 0
      ⟨⟨[], 4⟩, 0⟩).2.1 () ⟨⟨[], 4⟩, 0⟩ 6 ⟨⟨[], 10⟩, 0⟩ rfl rfl rfl
  · exact (C4_success_exit (fun p => ((.ok ()), p))
      (fun p _ => ((.ok 6), { p with reader := (⟨p.reader.data, 10⟩ : Cursor) })) 99 1
      ⟨⟨[], 4⟩, 0⟩).2.2.1 () ⟨⟨[], 4⟩, 0⟩ 6 ⟨⟨[], 10⟩, 0⟩ rfl rfl (by decide) (by decide)
  · exact (C4_success_exit (fun p => (((.error .UnknownChunk) : Except Error Unit), p))
      (fun p _ => ((.ok 0), p)) 10 0 ⟨⟨[], 4⟩, 0⟩).2.2.2 .UnknownChunk ⟨⟨[], 4⟩, 0⟩ rfl

/-- C5: `parse` operates over `[0, total stream length)`: on the cursor
reader it equals `parse_loop` run from absolute offset 0 with `total_size`
the full stream length (first conjunct); and when the header protocol and
body function preserve the depth counter on success, any successful
`parse` ends with the cursor at the total stream length and the depth at
its pre-parse value (second conjunct). -/
theorem C5_parse_whole_region {H : Type}
    (hdr : Parser Cursor → (Except Error H) × Parser Cursor)
    (f : Parser Cursor → H → (Except Error Nat) × Parser Cursor)
    (fuel : Nat) (p : Parser Cursor) :
    parse cursorOps hdr f fuel p =
      parse_loop cursorOps hdr f p.reader.data.length fuel ⟨⟨p.reader.data, 0⟩, p.depth⟩ ∧
    ((∀ q h q', hdr q = (.ok h, q') → q'.depth = q.depth) →
     (∀ q h s q', f q h = (.ok s, q') → q'.depth = q.depth) →
     ∀ q, parse cursorOps hdr f fuel p = (.ok, q) →
       q.reader.pos = p.reader.data.length ∧ q.depth = p.depth) := by
  have h1 : parse cursorOps hdr f fuel p =
      parse_loop cursorOps hdr f p.reader.data.length fuel ⟨⟨p.reader.data, 0⟩, p.depth⟩ := rfl
  refine ⟨h1, fun hh hf q hq => ?_⟩
  rw [h1] at hq
  exact ⟨parse_loop_ok_pos hdr f _ fuel _ q hq,
    parse_loop_ok_depth cursorOps hdr f p.reader.data.length hh hf fuel
      ⟨⟨p.reader.data, 0⟩, p.depth⟩ q hq⟩

/-- C5 witness: the theorem applied to the source's own 24-byte IFF test
stream with its header protocol and skip body: the parse succeeds with the
final position equal to the stream length 24 and depth back at 0. -/
theorem C5_witness :
    parse cursorOps (liftR headerIFF) (fun p h => liftR (skip h.2) p) 1 ⟨⟨testData, 0⟩, 0⟩ =
      (.ok, ⟨⟨testData, 24⟩, 0⟩) ∧
    (⟨⟨testData, 24⟩, 0⟩ : Parser Cursor).reader.pos = testData.length ∧
    (⟨⟨testData, 24⟩, 0⟩ : Parser Cursor).depth = 0 := by
  have hrun : parse cursorOps (liftR headerIFF) (fun p h => liftR (skip h.2) p) 1
      ⟨⟨testData, 0⟩, 0⟩ = (.ok, ⟨⟨testData, 24⟩, 0⟩) := by rfl
  refine ⟨hrun, ?_⟩
  exact (C5_parse_whole_region (liftR headerIFF) (fun p h => liftR (skip h.2) p) 1
      ⟨⟨testData, 0⟩, 0⟩).2
    (fun q h q' e => liftR_depth headerIFF q _ q' e)
    (fun q h s q' e => liftR_depth (skip h.2) q _ q' e)
    ⟨⟨testData, 24⟩, 0⟩ hrun

/-- C6 counterexample: `subchunks` invoked at position `2 ^ 64 - 1` with
declared group size 2. The claim's bound `position + size` is not
representable in `u64`; the source's unchecked addition wraps the nested
bound to 1, and the run succeeds at position 1 — while the claim-faithful
variant with the exact bound `position + size` fails with a parse error on
the same input. -/
theorem C6_counterexample :
    subchunks cursorOps (fun p => ((.ok ()), p))
      (fun p _ => ((.ok 0), { p with reader := (⟨p.reader.data, 1⟩ : Cursor) })) 2 1
      ⟨⟨[], 2 ^ 64 - 1⟩, 0⟩ = (.ok, ⟨⟨[], 1⟩, 0⟩) ∧
    subchunks_claim cursorOps (fun p => ((.ok ()), p))
      (fun p _ => ((.ok 0), { p with reader := (⟨p.reader.data, 1⟩ : Cursor) })) 2 1
      ⟨⟨[], 2 ^ 64 - 1⟩, 0⟩ = (.err .ParseError, ⟨⟨[], 1⟩, 0⟩) ∧
    ((2 ^ 64 - 1) + 2) % 2 ^ 64 ≠ (2 ^ 64 - 1) + 2 :=
  ⟨rfl, rfl, by norm_num⟩

/-- C6 (amended): when the position query at entry succeeds returning `pos`
and `pos + s` is representable in `u64`, `subchunks` with declared group
size `s` runs the nested loop with end bound exactly `pos + s`, bracketed
by the depth push (on entry) and pop (on every loop exit); in general the
bound is `(pos + s) % 2 ^ 64`, the source's wrapping `u64` addition. -/
theorem C6_subchunks_bound {ρ H : Type} (ops : ReaderOps ρ)
    (hdr : Parser ρ → (Except Error H) × Parser ρ)
    (f : Parser ρ → H → (Except Error Nat) × Parser ρ)
    (s fuel : Nat) (p : Parser ρ) (pos : Nat) (r : ρ)
    (hsp : ops.stream_position p.reader = (.ok pos, r)) (hlt : pos + s < 2 ^ 64) :
    subchunks ops hdr f s fuel p =
      match parse_loop ops hdr f (pos + s) fuel ⟨r, push p.depth⟩ with
      | (.diverge, q) => (.diverge, q)
      | (res, q) => (res, { q with depth := pop q.depth }) := by
  unfold subchunks
  dsimp only
  rw [hsp]
  dsimp only
  rw [Nat.mod_eq_of_lt hlt]

/-- C6 witness: the amended theorem applied at entry position 0 with group
size 3 and a body consuming exactly to the bound: the nested run succeeds
at position 3 with depth back at 0. -/
theorem C6_witness :
    0 + 3 < 2 ^ 64 ∧
    subchunks cursorOps (fun p => ((.ok ()), p))
      (fun p _ => ((.ok 3), { p with reader := (⟨p.reader.data, 3⟩ : Cursor) })) 3 1
      ⟨⟨[], 0⟩, 0⟩ = (.ok, ⟨⟨[], 3⟩, 0⟩) := by
  refine ⟨by norm_num, ?_⟩
  rw [C6_subchunks_bound cursorOps (fun p => ((.ok ()), p))
    (fun p _ => ((.ok 3), { p with reader := (⟨p.reader.data, 3⟩ : Cursor) })) 3 1
    ⟨⟨[], 0⟩, 0⟩ 0 ⟨[], 0⟩ rfl (by norm_num)]
  rfl

end ChunkParser
